import Mathlib

/-!
Verification of the core of the lovedboy/torrent BitTorrent client.

Each Go function relevant to the properties below is shallow-embedded as a
Lean definition.  Machine integers that cannot overflow in the scenarios
considered are modelled as `Nat`/`Int`; fallible Go functions return
`Option`/`Except`; state mutation is explicit state passing.  External
effects (disk reads, SHA-1, the stat system call) enter as explicit
parameters so that the embedded functions stay pure and executable.
Definitions whose Go source is not part of the repository snapshot (they
live in files such as torrent.go / connection.go that only have callers
here) are modelled from the specification and marked as such in their doc
comments.
-/

namespace TorrentProof

/-! ## Dial timeout (client.go, `reducedDialTimeout`)

Go:
```
func reducedDialTimeout(max time.Duration, halfOpenLimit int, pendingPeers int) (ret time.Duration) {
    ret = max / time.Duration((pendingPeers+halfOpenLimit)/halfOpenLimit)
    if ret < minDialTimeout {
        ret = minDialTimeout
    }
    return
}
```
`time.Duration` is a signed 64-bit integer count of nanoseconds; all the
quantities involved are non-negative and far below 2^63 in any realistic
configuration, so the arithmetic is modelled on `Nat` (Go's integer
division on non-negative operands is floor division, which agrees with
`Nat` division).  The constant `minDialTimeout` is defined in a file not
present in the snapshot; the spec gives its value as 5 seconds, and it is
kept as an explicit parameter so every statement below holds for any
choice of the floor. -/

def reducedDialTimeout (minDialTimeout max halfOpenLimit pendingPeers : Nat) : Nat :=
  let ret := max / ((pendingPeers + halfOpenLimit) / halfOpenLimit)
  if ret < minDialTimeout then minDialTimeout else ret

/-- The formula the spec claims: the divisor is the *ceiling* of
`(pendingPeers + halfOpenLimit) / halfOpenLimit`.  Written from the spec's
words for comparison with the source function. -/
def specCeilDialTimeout (minDialTimeout max halfOpenLimit pendingPeers : Nat) : Nat :=
  let ret := max / ((pendingPeers + halfOpenLimit + halfOpenLimit - 1) / halfOpenLimit)
  if ret < minDialTimeout then minDialTimeout else ret

/-! ## Metainfo (metainfo/metainfo.go) -/

/-- Go `metainfo.FileInfo`. -/
structure FileInfo where
  length : Int
  path : List String
  deriving Repr, DecidableEq

/-- Go `metainfo.Info`.  `pieces` is the raw byte string of concatenated
20-byte SHA-1 digests; bytes are modelled as `Nat`. -/
structure Info where
  pieceLength : Int
  pieces : List Nat
  name : String
  length : Int
  files : List FileInfo
  deriving Repr, DecidableEq

/-- Go `Info.NumPieces`:
```
func (info *Info) NumPieces() int {
    if len(info.Pieces)%20 != 0 {
        panic(len(info.Pieces))
    }
    return len(info.Pieces) / 20
}
```
The panic is modelled as `none`. -/
def Info.NumPieces (info : Info) : Option Nat :=
  if info.pieces.length % 20 ≠ 0 then none
  else some (info.pieces.length / 20)

/-- The `for` loop of `Info.GeneratePieces`, accumulating digests into
`acc` (Go: `pieces = hasher.Sum(pieces)` appends the digest of the bytes
just copied).  `sha1` is the hash function, kept abstract.  Each round
performs `wn, err := io.CopyN(hasher, pr, pieceLength)` against a pipe
that still holds `content` and that the producer closes with error `werr`
(`none` models a clean close, which the reader sees as `io.EOF`; the loop
body maps `io.EOF` back to nil).  `CopyN` with a non-positive count copies
nothing and yields at most `io.EOF`, so the loop breaks at `wn == 0`;
otherwise it copies `min pieceLength content.length` bytes and returns the
close error exactly when the pipe drains before the requested count. -/
def generatePiecesLoop (sha1 : List Nat → List Nat) (pieceLength : Int)
    (werr : Option String) (content : List Nat) (acc : List Nat) :
    Except String (List Nat) :=
  if _hp : pieceLength ≤ 0 then .ok acc
  else
    if _hlt : ((content.take pieceLength.toNat).length : Int) < pieceLength then
      -- the pipe drained early: err is werr (or io.EOF ↦ nil on clean close)
      match werr with
      | some e => .error e
      | none =>
        if (content.take pieceLength.toNat).length = 0 then .ok acc
        else .ok (acc ++ sha1 (content.take pieceLength.toNat))
    else
      -- a full piece was copied without error; hash it and continue
      generatePiecesLoop sha1 pieceLength werr (content.drop pieceLength.toNat)
        (acc ++ sha1 (content.take pieceLength.toNat))
  termination_by content.length
  decreasing_by
    simp only [List.length_take] at _hlt
    simp only [List.length_drop]
    omega

/-- Go `Info.GeneratePieces`:
```
func (info *Info) GeneratePieces(open func(fi FileInfo) (io.ReadCloser, error)) error {
    if info.PieceLength == 0 {
        return errors.New("piece length must be non-zero")
    }
    ... // pipe fed by writeFiles, hashed pieceLength bytes at a time
    info.Pieces = pieces
    return nil
}
```
The concurrent `writeFiles` producer is abstracted by the bytes `content`
it writes into the pipe and the error `werr` it closes the pipe with
(`none` for a clean close).  Returns the updated `Info` and the Go error
(`none` = nil). -/
def Info.GeneratePieces (info : Info) (sha1 : List Nat → List Nat)
    (content : List Nat) (werr : Option String) : Info × Option String :=
  if info.pieceLength = 0 then (info, some "piece length must be non-zero")
  else
    match generatePiecesLoop sha1 info.pieceLength werr content [] with
    | .error e => (info, some e)
    | .ok pieces => ({ info with pieces := pieces }, none)

/-- Go `filepath.Base`: empty path gives ".", trailing slashes are
dropped, the last component is returned, and an all-slash path gives "/".
(Separator is modelled as '/'.) -/
def filepathBase (path : String) : String :=
  if path = "" then "."
  else
    -- work on the reversed character list: strip trailing separators,
    -- then keep up to the next separator (the last path component)
    let rev := path.data.reverse.dropWhile (· = '/')
    if rev = [] then "/"
    else String.mk ((rev.takeWhile (· ≠ '/')).reverse)

/-- Result of the `os.Stat` system call, as far as `BuildFromFile` reads
it: the file size and the directory bit. -/
structure FileStat where
  size : Int
  isDir : Bool
  deriving Repr, DecidableEq

/-- Go `Info.BuildFromFile`:
```
func (info *Info) BuildFromFile(path string)(err error){
    info.Name = filepath.Base(path)
    info.Files = nil
    fi, err := os.Stat(path)
    if err != nil{
        fmt.Printf("error getting relative path: %s", err)
        return nil
    }
    if fi.IsDir(){
        return fmt.Errorf("%s is dir", err)
    }
    info.Files = append(info.Files, FileInfo{Length: fi.Size()})
    info.Length = fi.Size()
    err = info.GeneratePieces(...)
    if err != nil {
        err = fmt.Errorf("error generating pieces: %s", err)
    }
    return
}
```
`stat` is the outcome of `os.Stat(path)`; `sha1`, `content` and `werr`
feed `GeneratePieces` as above (the opener always reopens `path`, so the
content stream is a single parameter). -/
def Info.BuildFromFile (info : Info) (path : String) (stat : Except String FileStat)
    (sha1 : List Nat → List Nat) (content : List Nat) (werr : Option String) :
    Info × Option String :=
  let info := { info with name := filepathBase path, files := [] }
  match stat with
  | .error _ => (info, none)      -- the stat error is printed and swallowed
  | .ok fi =>
    if fi.isDir then (info, some "is dir")
    else
      let info := { info with
        files := [{ length := fi.size, path := [] }], length := fi.size }
      let r := info.GeneratePieces sha1 content werr
      match r.2 with
      | some e => (r.1, some ("error generating pieces: " ++ e))
      | none => (r.1, none)

/-! ## Wire messages and connections (client.go / connection.go)

The `connection` struct itself lives in connection.go, which is not part
of the snapshot; the fields below are exactly those client.go reads and
writes.  Go's `map[request]struct{}` for `PeerRequests` is modelled as a
duplicate-free list in insertion order (Go leaves map iteration order
unspecified; the list order stands in for the order the loop happens to
see).  `post` accumulates the messages handed to the connection's writer
queue, in order. -/

/-- Go `request` (a chunk request): piece index, byte offset within the
piece, length. -/
structure Request where
  index : Nat
  begin : Nat
  length : Nat
  deriving DecidableEq, Repr

/-- Outbound protocol messages posted by the code modelled here. -/
inductive Message where
  | choke
  | unchoke
  | piece (r : Request) (block : List Nat)
  | metadataData (piece : Int) (data : List Nat)
  | metadataReject (piece : Int)
  deriving DecidableEq, Repr

/-- The per-peer connection state, restricted to the fields client.go
uses: am-choking flag, the peer's interest, the peer's queued requests,
chunk counters, peer-scoring counters, the touched-pieces set, the
ut_metadata request flags, and the posted-message queue. -/
structure connection where
  peerId : Nat
  remoteIp : String
  choked : Bool
  peerInterested : Bool
  peerRequests : List Request
  chunksSent : Nat
  usefulChunksReceived : Nat
  goodPiecesDirtied : Nat
  badPiecesDirtied : Nat
  peerTouchedPieces : List Nat
  metadataRequests : List Bool
  post : List Message
  deriving DecidableEq, Repr

/-- Modelled from the spec: `connection.Choke` (connection.go, not in the
snapshot) — "choke the peer": set the am-choking flag, emitting a Choke
message when the state changes. -/
def connection.Choke (c : connection) : connection :=
  if c.choked then c
  else { c with choked := true, post := c.post ++ [Message.choke] }

/-- Modelled from the spec: `connection.Unchoke` (connection.go, not in
the snapshot) — "unchoke": clear the am-choking flag, emitting an Unchoke
message when the state changes. -/
def connection.Unchoke (c : connection) : connection :=
  if c.choked then { c with choked := false, post := c.post ++ [Message.unchoke] }
  else c

/-- Go `Client.sendChunk`:
```
func (cl *Client) sendChunk(t *Torrent, c *connection, r request) error {
    b := make([]byte, r.Length)
    p := t.info.Piece(int(r.Index))
    n, err := t.readAt(b, p.Offset()+int64(r.Begin))
    if n != len(b) {
        if err == nil { panic("expected error") }
        return err
    }
    c.Post(pp.Message{Type: pp.Piece, Index: r.Index, Begin: r.Begin, Piece: b})
    c.chunksSent++
    ...
    return nil
}
```
The storage read is the oracle `readAt`: either the `r.Length` bytes at
the request's offset or the read error (a short read always comes with an
error, per the panic). -/
def sendChunk (readAt : Request → Except String (List Nat)) (c : connection)
    (r : Request) : connection × Option String :=
  match readAt r with
  | .error e => (c, some e)
  | .ok b =>
    ({ c with post := c.post ++ [Message.piece r b], chunksSent := c.chunksSent + 1 },
     none)

/-- The `another:` loop of Go `Client.upload`:
```
another:
    for seeding || c.chunksSent < c.UsefulChunksReceived+6 {
        c.Unchoke()
        for r := range c.PeerRequests {
            err := cl.sendChunk(t, c, r)
            if err != nil { ...; break another }
            delete(c.PeerRequests, r)
            goto another
        }
        return
    }
    c.Choke()
```
Each pass re-checks the window, unchokes, serves the first queued request
(one per pass, then `goto another`), and on a send error breaks out of the
labelled loop, which lands on `c.Choke()`.  When the window closes the
loop exits and chokes; when the queue drains with the window open it
returns unchoked. -/
def uploadLoop (seeding : Bool) (readAt : Request → Except String (List Nat))
    (c : connection) : connection :=
  if seeding || decide (c.chunksSent < c.usefulChunksReceived + 6) then
    match _hr : c.peerRequests with
    | [] => c.Unchoke
    | r :: rest =>
      let s := sendChunk readAt c.Unchoke r
      match s.2 with
      | some _ => s.1.Choke        -- break another → c.Choke()
      | none => uploadLoop seeding readAt { s.1 with peerRequests := rest }
  else c.Choke
  termination_by c.peerRequests.length
  decreasing_by simp [_hr]

/-- Go `Client.upload` (the upload pass).  `noUpload` is
`cl.config.NoUpload`; `seeding` is `t.seeding()` and
`connHasWantedPieces` is `t.connHasWantedPieces(c)`, both defined in
torrent.go which is not in the snapshot, so they enter as oracle
booleans:
```
func (cl *Client) upload(t *Torrent, c *connection) {
    if cl.config.NoUpload { return }
    if !c.PeerInterested { return }
    seeding := t.seeding()
    if !seeding && !t.connHasWantedPieces(c) { return }
    ... // the another: loop above
}
``` -/
def upload (noUpload seeding connHasWantedPieces : Bool)
    (readAt : Request → Except String (List Nat)) (c : connection) : connection :=
  if noUpload then c
  else if !c.peerInterested then c
  else if !seeding && !connHasWantedPieces then c
  else uploadLoop seeding readAt c

/-- The `case pp.Request` arm of Go `Client.connectionLoop`:
```
case pp.Request:
    if c.Choked { break }
    if !c.PeerInterested {
        err = errors.New("peer sent request but isn't interested"); break
    }
    if !t.havePiece(msg.Index.Int()) {
        requestsReceivedForMissingPieces.Add(1)
        err = errors.New("peer requested piece we don't have"); break
    }
    if c.PeerRequests == nil { c.PeerRequests = make(...) }
    c.PeerRequests[newRequest(msg.Index, msg.Begin, msg.Length)] = struct{}{}
    cl.upload(t, c)
```
(`err != nil` after the switch terminates the connection.)  `havePiece`
is a torrent.go method not in the snapshot and enters as an oracle.  Map
insertion is idempotent, hence the membership test in the list model.
Returns the connection state and the loop error (`none` keeps the
connection running). -/
def handleRequestMsg (havePiece : Nat → Bool)
    (noUpload seeding connHasWantedPieces : Bool)
    (readAt : Request → Except String (List Nat))
    (c : connection) (r : Request) : connection × Option String :=
  if c.choked then (c, none)
  else if !c.peerInterested then (c, some "peer sent request but isn't interested")
  else if !havePiece r.index then (c, some "peer requested piece we don't have")
  else
    let c' := { c with
      peerRequests :=
        if r ∈ c.peerRequests then c.peerRequests else c.peerRequests ++ [r] }
    (upload noUpload seeding connHasWantedPieces readAt c', none)

/-- Spec-side description of the upload pass used for the amended claim
C3, written from the spec's words: while either seeding or within the
6-chunk tit-for-tat window, the peer is unchoked and queued requests are
served one by one in order (post a Piece message with the bytes read,
remove the request, advance chunks-sent); the number served is window- or
queue-limited, and the peer ends choked exactly when the window is
exhausted.  `bytes` gives the storage contents for each request. -/
def uploadLoopSpec (seeding : Bool) (bytes : Request → List Nat)
    (c : connection) : connection :=
  if seeding || decide (c.chunksSent < c.usefulChunksReceived + 6) then
    let n := if seeding then c.peerRequests.length
      else min c.peerRequests.length (c.usefulChunksReceived + 6 - c.chunksSent)
    let chokeEnd := !seeding && decide (c.usefulChunksReceived + 6 ≤ c.chunksSent + n)
    { c with
      choked := chokeEnd,
      peerRequests := c.peerRequests.drop n,
      chunksSent := c.chunksSent + n,
      post := c.post ++ (if c.choked then [Message.unchoke] else []) ++
        (c.peerRequests.take n).map (fun r => Message.piece r (bytes r)) ++
        (if chokeEnd then [Message.choke] else []) }
  else c.Choke

/-! ## Piece hashing and peer scoring (client.go, `pieceHashed`)

```
func (cl *Client) pieceHashed(t *Torrent, piece int, correct bool) {
    p := &t.pieces[piece]
    if p.EverHashed {
        // Don't score the first time a piece is hashed, it could be an
        // initial check.
        if correct {
            pieceHashedCorrect.Add(1)
        } else {
            log.Printf("%s: piece %d (%x) failed hash", t, piece, p.Hash)
            pieceHashedNotCorrect.Add(1)
        }
    }
    p.EverHashed = true
    touchers := cl.reapPieceTouches(t, piece)
    if correct {
        for _, c := range touchers { c.goodPiecesDirtied++ }
        err := p.Storage().MarkComplete()
        ...
        t.updatePieceCompletion(piece)
    } else if len(touchers) != 0 {
        for _, c := range touchers {
            c.badPiecesDirtied++
            t.cl.banPeerIP(missinggo.AddrIP(c.remoteAddr()))
            t.dropConnection(c)
        }
    }
    cl.pieceChanged(t, piece)
}
```
The modelled observables are the per-connection scoring counters, the
torrent's connection list, the banned-IP set, and the two global expvar
counters; `MarkComplete`, `updatePieceCompletion` and `pieceChanged`
touch none of these fields and are omitted.  `dropConnection` is a
torrent.go method not in the snapshot; modelled from the spec ("its
connection is dropped"): the connection leaves the torrent's list, and
the model records it in `dropped` so its final counters stay
observable. -/

/-- The per-piece flags `pieceHashed` reads: the expected hash and
`EverHashed`. -/
structure Piece where
  hash : List Nat
  everHashed : Bool
  deriving DecidableEq, Repr

/-- The client/torrent state `pieceHashed` operates on. -/
structure HashState where
  pieces : List Piece
  conns : List connection
  dropped : List connection
  badPeerIPs : List String
  pieceHashedCorrect : Nat
  pieceHashedNotCorrect : Nat
  deriving DecidableEq, Repr

/-- Go `Client.banPeerIP` (client.go): insert the IP into the
`badPeerIPs` set (map-insert semantics: already-present keys are
no-ops). -/
def banPeerIP (ips : List String) (ip : String) : List String :=
  if ip ∈ ips then ips else ips ++ [ip]

/-- Whether `piece` is in the connection's touched-pieces set. -/
def touchedPiece (piece : Nat) (c : connection) : Bool :=
  decide (piece ∈ c.peerTouchedPieces)

/-- Go `delete(c.peerTouchedPieces, piece)`. -/
def clearTouch (piece : Nat) (c : connection) : connection :=
  { c with peerTouchedPieces := c.peerTouchedPieces.filter (· ≠ piece) }

/-- Go `Client.reapPieceTouches`: return the connections that touched the
piece and clear the entry while doing it.  Go returns pointers into
`t.conns`; in the value model the first component is the touchers (entry
already cleared, as the caller sees them) and the second is `t.conns`
after the clearing. -/
def reapPieceTouches (conns : List connection) (piece : Nat) :
    List connection × List connection :=
  ((conns.filter (touchedPiece piece)).map (clearTouch piece),
   conns.map (clearTouch piece))

/-- Go `Client.pieceHashed` (see the section comment for the source).
Go mutates the touchers through pointers into `t.conns`; the value model
fuses `reapPieceTouches` with the counter increments into single passes
over `conns`. -/
def pieceHashed (st : HashState) (piece : Nat) (correct : Bool) : HashState :=
  let p := st.pieces.getD piece { hash := [], everHashed := false }
  -- the EverHashed guard covers only the two expvar counters (and the log)
  let st1 : HashState := { st with
    pieceHashedCorrect :=
      if p.everHashed && correct then st.pieceHashedCorrect + 1
      else st.pieceHashedCorrect,
    pieceHashedNotCorrect :=
      if p.everHashed && !correct then st.pieceHashedNotCorrect + 1
      else st.pieceHashedNotCorrect,
    pieces := st.pieces.set piece { p with everHashed := true } }
  let touchers := (reapPieceTouches st1.conns piece).1
  if correct then
    -- MarkComplete / updatePieceCompletion / pieceChanged: no modelled fields
    { st1 with
      conns := st1.conns.map fun c =>
        if touchedPiece piece c then
          { clearTouch piece c with goodPiecesDirtied := c.goodPiecesDirtied + 1 }
        else c }
  else if touchers.length ≠ 0 then
    { st1 with
      conns := st1.conns.filter fun c => !touchedPiece piece c,
      dropped := st1.dropped ++ touchers.map fun c =>
        { c with badPiecesDirtied := c.badPiecesDirtied + 1 },
      badPeerIPs := touchers.foldl (fun ips c => banPeerIP ips c.remoteIp)
        st1.badPeerIPs }
  else st1

/-! ## Connection admission (client.go, `addConnection` / `wantConns`)

```
func (cl *Client) addConnection(t *Torrent, c *connection) bool {
    if cl.closed.IsSet() { return false }
    if !cl.wantConns(t) { return false }
    for _, c0 := range t.conns {
        if c.PeerID == c0.PeerID {
            duplicateClientConns.Add(1)
            return false
        }
    }
    if len(t.conns) >= socketsPerTorrent {
        c := t.worstBadConn(cl)
        if c == nil { return false }
        ...
        c.Close()
        t.deleteConnection(c)
    }
    if len(t.conns) >= socketsPerTorrent { panic(len(t.conns)) }
    t.conns = append(t.conns, c)
    c.t = t
    return true
}
```
The constant `socketsPerTorrent` is defined outside the snapshot (the
spec says "e.g. 80") and is a parameter.  `t.seeding()`, `t.needData()`
and `t.worstBadConn(cl)` live in torrent.go, outside the snapshot. -/

/-- Modelled from the spec: `Torrent.worstBadConn` (torrent.go, not in
the snapshot) picks the "worst" existing connection by a combined score
of (uselessness, badness, age), or nil when none qualifies.  The choice
enters as an oracle index into the list; `none` or an out-of-range index
stands for nil. -/
def worstBadConn (conns : List connection) (choice : Option Nat) :
    Option connection :=
  choice.bind (fun i => conns.get? i)

/-- Modelled from the spec: `Torrent.deleteConnection` (torrent.go, not
in the snapshot) removes the connection from the torrent's connection
list ("destroyed on loop exit or eviction"). -/
def deleteConnection (conns : List connection) (c : connection) :
    List connection :=
  conns.erase c

/-- Go `Client.wantConns`:
```
func (cl *Client) wantConns(t *Torrent) bool {
    if !t.seeding() && !t.needData() { return false }
    if len(t.conns) < socketsPerTorrent { return true }
    return t.worstBadConn(cl) != nil
}
``` -/
def wantConns (socketsPerTorrent : Nat) (seeding needData : Bool)
    (worstChoice : Option Nat) (conns : List connection) : Bool :=
  if !seeding && !needData then false
  else if conns.length < socketsPerTorrent then true
  else (worstBadConn conns worstChoice).isSome

/-- Go `Client.addConnection` (source above).  Returns the updated
connection list and the boolean result; `none` models the
`panic(len(t.conns))` after a failed eviction. -/
def addConnection (socketsPerTorrent : Nat) (closed seeding needData : Bool)
    (worstChoice : Option Nat) (conns : List connection) (c : connection) :
    Option (List connection × Bool) :=
  if closed then some (conns, false)
  else if !(wantConns socketsPerTorrent seeding needData worstChoice conns) then
    some (conns, false)
  else if conns.any (fun c0 => c.peerId == c0.peerId) then some (conns, false)
  else if socketsPerTorrent ≤ conns.length then
    match worstBadConn conns worstChoice with
    | none => some (conns, false)
    | some c0 =>
      let conns1 := deleteConnection conns c0
      if socketsPerTorrent ≤ conns1.length then none   -- Go panics here
      else some (conns1 ++ [c], true)
  else some (conns ++ [c], true)

/-- The operations that change a torrent's connection list: an
`addConnection` attempt (with its oracle inputs) or a
drop/`deleteConnection`. -/
inductive ConnOp where
  | add (c : connection) (closed seeding needData : Bool) (worstChoice : Option Nat)
  | drop (c : connection)

/-- One transition of the per-torrent connection list. -/
def connStep (socketsPerTorrent : Nat) (conns : List connection) :
    ConnOp → Option (List connection)
  | .add c closed seeding needData w =>
    (addConnection socketsPerTorrent closed seeding needData w conns c).map Prod.fst
  | .drop c => some (deleteConnection conns c)

/-- Run a sequence of operations from the empty connection list of a
freshly added torrent (`newTorrent` leaves `conns` nil). -/
def connRun (socketsPerTorrent : Nat) (ops : List ConnOp) :
    Option (List connection) :=
  ops.foldl
    (fun acc op => acc.bind (fun conns => connStep socketsPerTorrent conns op))
    (some [])

/-! ## ut_metadata handling (client.go, `gotMetadataExtensionMsg`)

The Go function bencode-unmarshals the payload into `map[string]int`
(failure returns an error before any state is touched) and dispatches on
`msg_type`.  The model takes the parsed fields directly: `msgType` is
`d["msg_type"]` (`none` when the key is missing), `piece` is `d["piece"]`
and `totalSize` is `d["total_size"]` (Go map reads default to 0 for
missing keys).  The BEP 9 message-type constants (peer_protocol package,
outside the snapshot) are 0 = request, 1 = data, 2 = reject (spec §6). -/

def RequestMetadataExtensionMsgType : Int := 0
def DataMetadataExtensionMsgType : Int := 1
def RejectMetadataExtensionMsgType : Int := 2

/-- Modelled from the spec: the free helper `metadataPieceSize` (defined
outside the snapshot) — metadata is split into 16 KiB pieces, the last
piece shorter: the size of piece `piece` of a `totalSize`-byte info
dictionary is the remaining byte count capped at 16384. -/
def metadataPieceSize (totalSize piece : Int) : Int :=
  min (totalSize - piece * 16384) 16384

/-- The torrent state the metadata exchange touches: the accumulation
buffer, the per-piece completion flags, and whether the info dictionary
is already known. -/
structure TorrentMeta where
  metadataBytes : List Nat
  metadataCompleted : List Bool
  infoKnown : Bool
  deriving DecidableEq, Repr

/-- Go's `copy(dst[off:], src)`: the destination keeps its length and
source bytes beyond its end are discarded. -/
def copyInto (dst src : List Nat) (off : Nat) : List Nat :=
  (List.range dst.length).map fun i =>
    if off ≤ i ∧ i < off + src.length then src.getD (i - off) 0 else dst.getD i 0

/-- Modelled from the spec: `connection.requestedMetadataPiece`
(connection.go, not in the snapshot) — whether this connection has an
outstanding request for that metadata piece. -/
def requestedMetadataPiece (c : connection) (piece : Int) : Bool :=
  decide (0 ≤ piece) && c.metadataRequests.getD piece.toNat false

/-- Modelled from the spec: `Torrent.saveMetadataPiece` (torrent.go, not
in the snapshot) — store the piece's bytes at offset 16 KiB × index in
the accumulation buffer and mark the piece present; a no-op once the info
is known or for an out-of-range index. -/
def saveMetadataPiece (t : TorrentMeta) (piece : Int) (data : List Nat) :
    TorrentMeta :=
  if t.infoKnown then t
  else if 0 ≤ piece ∧ piece.toNat < t.metadataCompleted.length then
    { t with
      metadataBytes := copyInto t.metadataBytes data (16384 * piece.toNat),
      metadataCompleted := t.metadataCompleted.set piece.toNat true }
  else t

/-- Modelled from the spec: `Torrent.haveMetadataPiece` (torrent.go, not
in the snapshot) — whether that metadata piece is present. -/
def haveMetadataPiece (t : TorrentMeta) (piece : Int) : Bool :=
  decide (0 ≤ piece) && t.metadataCompleted.getD piece.toNat false

/-- Modelled from the spec: `Torrent.maybeMetadataCompleted` (torrent.go,
not in the snapshot) — "when all metadata pieces are present, the
concatenation is verified: SHA-1 of the buffer must equal the torrent's
info-hash; on match, the torrent transitions to info known; on mismatch,
the buffer is cleared and the process restarts".  `sha1ok` is the oracle
for "the buffer's SHA-1 equals the info-hash". -/
def maybeMetadataCompleted (sha1ok : List Nat → Bool) (t : TorrentMeta) :
    TorrentMeta :=
  if t.infoKnown then t
  else if t.metadataCompleted.length ≠ 0 ∧ t.metadataCompleted.all id then
    if sha1ok t.metadataBytes then { t with infoKnown := true }
    else { t with metadataBytes := [], metadataCompleted := [] }
  else t

/-- Go `Client.gotMetadataExtensionMsg` (client.go:1045-1086), after the
bencode unmarshalling:
```
case pp.DataMetadataExtensionMsgType:
    if !c.requestedMetadataPiece(piece) { err = ...; return }
    c.metadataRequests[piece] = false
    begin := len(payload) - metadataPieceSize(d["total_size"], piece)
    if begin < 0 || begin >= len(payload) { err = ...; return }
    t.saveMetadataPiece(piece, payload[begin:])
    c.UsefulChunksReceived++
    ...
    t.maybeMetadataCompleted()
case pp.RequestMetadataExtensionMsgType:
    if !t.haveMetadataPiece(piece) { c.Post(reject); break }
    start := (1 << 14) * piece
    c.Post(data message with t.metadataBytes[start : start+t.metadataPieceSize(piece)])
case pp.RejectMetadataExtensionMsgType:
default:
    err = errors.New("unknown msg_type value")
```
(`t.metadataPieceSize(piece)` is `metadataPieceSize(len(t.metadataBytes),
piece)`; Go would panic slicing with a negative index — the model's
`toNat` clamps, which is indistinguishable for the in-range inputs the
claims quantify over.)  Returns the torrent state, the connection state,
and the connection-fatal error. -/
def gotMetadataExtensionMsg (sha1ok : List Nat → Bool) (msgType : Option Int)
    (piece totalSize : Int) (payload : List Nat) (t : TorrentMeta)
    (c : connection) : TorrentMeta × connection × Option String :=
  match msgType with
  | none => (t, c, some "missing msg_type field")
  | some mt =>
    if mt = DataMetadataExtensionMsgType then
      if !requestedMetadataPiece c piece then (t, c, some "got unexpected piece")
      else
        let c1 := { c with
          metadataRequests := c.metadataRequests.set piece.toNat false }
        let begin : Int := (payload.length : Int) - metadataPieceSize totalSize piece
        if begin < 0 ∨ begin ≥ (payload.length : Int) then
          (t, c1, some "data has bad offset in payload")
        else
          let t1 := saveMetadataPiece t piece (payload.drop begin.toNat)
          let c2 := { c1 with
            usefulChunksReceived := c1.usefulChunksReceived + 1 }
          (maybeMetadataCompleted sha1ok t1, c2, none)
    else if mt = RequestMetadataExtensionMsgType then
      if !haveMetadataPiece t piece then
        (t, { c with post := c.post ++ [Message.metadataReject piece] }, none)
      else
        (t, { c with post := c.post ++ [Message.metadataData piece
          ((t.metadataBytes.drop (16384 * piece).toNat).take
            (metadataPieceSize (t.metadataBytes.length : Int) piece).toNat)] },
         none)
    else if mt = RejectMetadataExtensionMsgType then (t, c, none)
    else (t, c, some "unknown msg_type value")

/-! ## Torrent addition (client.go, `AddTorrentInfoHash` / `AddTorrentSpec`)

The torrents map is modelled as an association list keyed by the
info-hash (a 20-byte value, modelled as `Nat`); Go map semantics are
recovered from the duplicate-free-keys invariant `NewClient` maintains.
`SetDisplayName`, `SetInfoBytes`, `addTrackers` and `maybeNewConns` live
in torrent.go, outside the snapshot; the first three are modelled from
the spec, and `maybeNewConns` touches none of the modelled fields. -/

/-- The default outbound chunk size (the constant is defined outside the
snapshot; the spec says "Defaults to 16KiB if not set"). -/
def defaultChunkSize : Nat := 16384

/-- The torrent fields `AddTorrentSpec` touches. -/
structure Torrent where
  infoHash : Nat
  displayName : String
  chunkSize : Nat
  trackers : List (List String)
  info : Option (List Nat)
  deriving DecidableEq, Repr

/-- Go `TorrentSpec`. -/
structure TorrentSpec where
  trackers : List (List String)
  infoHash : Nat
  info : Option (List Nat)
  displayName : String
  chunkSize : Nat
  deriving DecidableEq, Repr

/-- The client field `AddTorrentSpec` touches: the torrents map. -/
structure ClientT where
  torrents : List (Nat × Torrent)
  deriving DecidableEq, Repr

/-- Go `cl.torrents[infoHash]` (first matching key). -/
def lookupTorrent : List (Nat × Torrent) → Nat → Option Torrent
  | [], _ => none
  | (k, t) :: rest, ih => if k = ih then some t else lookupTorrent rest ih

/-- Mutation of the torrent stored under a key (Go mutates through the
`*Torrent` pointer held in the map). -/
def updateTorrent : List (Nat × Torrent) → Nat → (Torrent → Torrent) →
    List (Nat × Torrent)
  | [], _, _ => []
  | (k, t) :: rest, ih, f =>
    if k = ih then (k, f t) :: rest else (k, t) :: updateTorrent rest ih f

/-- Go `Client.newTorrent`: fresh torrent with the default chunk size and
no info, display name, or trackers. -/
def newTorrent (ih : Nat) : Torrent :=
  { infoHash := ih, displayName := "", chunkSize := defaultChunkSize,
    trackers := [], info := none }

/-- Go `Client.AddTorrentInfoHash`:
```
t, ok := cl.torrents[infoHash]
if ok { return }
new = true
t = cl.newTorrent(infoHash)
...
cl.torrents[infoHash] = t
```
(The DHT announce and want-peers bookkeeping touch none of the modelled
fields.) -/
def AddTorrentInfoHash (cl : ClientT) (ih : Nat) : ClientT × Bool :=
  match lookupTorrent cl.torrents ih with
  | some _ => (cl, false)
  | none => ({ torrents := cl.torrents ++ [(ih, newTorrent ih)] }, true)

/-- Modelled from the spec: `Torrent.SetDisplayName` (torrent.go, not in
the snapshot) — "The display name is replaced if the new spec provides
one" (the caller pre-checks non-emptiness). -/
def SetDisplayName (t : Torrent) (s : String) : Torrent :=
  { t with displayName := s }

/-- Modelled from the spec: `Torrent.SetInfoBytes` (torrent.go, not in
the snapshot) — "If the Info isn't yet known, it will be set"; per §4.6
the bytes must SHA-1 to the torrent's info-hash, else a (connection-level)
error.  `hash` is the SHA-1 oracle. -/
def SetInfoBytes (hash : List Nat → Nat) (t : Torrent) (b : List Nat) :
    Torrent × Option String :=
  if t.info.isSome then (t, none)
  else if hash b ≠ t.infoHash then (t, some "info bytes have wrong hash")
  else ({ t with info := some b }, none)

/-- One tier of the tracker merge: new URLs are appended to the tier if
not already present. -/
def mergeTier (old new : List String) : List String :=
  old ++ new.filter (fun u => !decide (u ∈ old))

/-- Modelled from the spec: `Torrent.addTrackers` (torrent.go, not in the
snapshot) — "the trackers will be merged with the existing ones",
tier-wise. -/
def addTrackers (t : Torrent) (announceList : List (List String)) : Torrent :=
  { t with trackers :=
      (List.range (max t.trackers.length announceList.length)).map fun i =>
        mergeTier (t.trackers.getD i []) (announceList.getD i []) }

/-- Applying `SetInfoBytes` to the torrent stored under `ih`, returning
the error (Go calls the method through the pointer obtained from
`AddTorrentInfoHash`). -/
def setInfoBytesAt (hash : List Nat → Nat) (cl : ClientT) (ih : Nat)
    (b : List Nat) : ClientT × Option String :=
  match lookupTorrent cl.torrents ih with
  | none => (cl, none)   -- unreachable: the caller just inserted ih
  | some t =>
    let r := SetInfoBytes hash t b
    ({ torrents := updateTorrent cl.torrents ih (fun _ => r.1) }, r.2)

/-- Go `Client.AddTorrentSpec`:
```
t, new = cl.AddTorrentInfoHash(spec.InfoHash)
if spec.DisplayName != "" { t.SetDisplayName(spec.DisplayName) }
if spec.Info != nil {
    err = t.SetInfoBytes(spec.Info.Bytes)
    if err != nil { return }
}
if spec.ChunkSize != 0 { t.chunkSize = pp.Integer(spec.ChunkSize) }
t.addTrackers(spec.Trackers)
t.maybeNewConns()
``` -/
def addTorrentSpecSteps (hash : List Nat → Nat) (cl1 : ClientT)
    (spec : TorrentSpec) : ClientT × Option String :=
  -- Go guards each mutation of the torrent pointed to by `t` with an `if`;
  -- updating the stored torrent with a conditionally-identity function is
  -- the same operation on the map
  let cl2 := ClientT.mk (updateTorrent cl1.torrents spec.infoHash
    (fun t => if spec.displayName ≠ "" then SetDisplayName t spec.displayName
      else t))
  let si : ClientT × Option String :=
    match spec.info with
    | some b => setInfoBytesAt hash cl2 spec.infoHash b
    | none => (cl2, none)
  match si.2 with
  | some e => (si.1, some e)
  | none =>
    let cl3 := ClientT.mk (updateTorrent si.1.torrents spec.infoHash
      (fun t => if spec.chunkSize ≠ 0 then { t with chunkSize := spec.chunkSize }
        else t))
    (ClientT.mk (updateTorrent cl3.torrents spec.infoHash
      (fun t => addTrackers t spec.trackers)), none)

def AddTorrentSpec (hash : List Nat → Nat) (cl : ClientT) (spec : TorrentSpec) :
    ClientT × Bool × Option String :=
  let a := AddTorrentInfoHash cl spec.infoHash
  let r := addTorrentSpecSteps hash a.1 spec
  (r.1, a.2, r.2)

/-- Spec-side description of the whole upload pass for the amended claim
C3: a no-op when upload is globally disabled, when the peer is not
interested, or when we are neither seeding nor hold a piece the peer
wants; otherwise the windowed serving loop described by
`uploadLoopSpec`. -/
def uploadSpec (noUpload seeding connHasWantedPieces : Bool)
    (bytes : Request → List Nat) (c : connection) : connection :=
  if noUpload then c
  else if !c.peerInterested then c
  else if !seeding && !connHasWantedPieces then c
  else uploadLoopSpec seeding bytes c

/-! ## Claims C4, C8, C9, C10 -/

/-- C4, claim as the spec states it: the per-dial timeout would equal
`max` divided by the *ceiling* of `(pendingPeers + halfOpenLimit) /
halfOpenLimit`, clamped below by the floor.  It does not: Go's integer
division truncates, so the divisor is the *floor* of that quotient.  At
`minDialTimeout = 5`, `max = 100`, `halfOpenLimit = 2`, `pendingPeers =
1`, the code yields `100 / ((1+2)/2) = 100 / 1 = 100` while the spec's
formula yields `100 / ceil(3/2) = 100 / 2 = 50`. -/
theorem reducedDialTimeout_ceil_counterexample :
    reducedDialTimeout 5 100 2 1 = 100 ∧ specCeilDialTimeout 5 100 2 1 = 50 ∧
      reducedDialTimeout 5 100 2 1 ≠ specCeilDialTimeout 5 100 2 1 := by
  refine ⟨by decide, by decide, by decide⟩

/-- C4, amended: for `halfOpenLimit > 0` the per-dial timeout equals
`max` divided (integer floor division) by `(pendingPeers + halfOpenLimit)
/ halfOpenLimit`, i.e. by `pendingPeers / halfOpenLimit + 1`, and the
result is clamped below by the minimum dial-timeout floor. -/
theorem reducedDialTimeout_eq_floor (minDialTimeout max halfOpenLimit pendingPeers : Nat)
    (h : 0 < halfOpenLimit) :
    reducedDialTimeout minDialTimeout max halfOpenLimit pendingPeers =
      Nat.max minDialTimeout (max / (pendingPeers / halfOpenLimit + 1)) := by
  unfold reducedDialTimeout
  rw [Nat.add_div_right _ h]
  rcases Nat.lt_or_ge (max / (pendingPeers / halfOpenLimit + 1)) minDialTimeout with hlt | hge
  · simp [hlt, Nat.max_eq_left (Nat.le_of_lt hlt)]
  · simp [Nat.not_lt.mpr hge, Nat.max_eq_right hge]

/-- Witness for `reducedDialTimeout_eq_floor` at concrete arguments. -/
theorem reducedDialTimeout_eq_floor_witness :
    0 < 2 ∧ reducedDialTimeout 5 100 2 1 = Nat.max 5 (100 / (1 / 2 + 1)) :=
  ⟨by decide, reducedDialTimeout_eq_floor 5 100 2 1 (by decide)⟩

/-- C9: `Info.NumPieces` returns `len(Pieces) / 20` whenever the length
of the `Pieces` byte string is a multiple of 20 (the panic branch is then
unreachable), and panics (modelled as `none`) otherwise. -/
theorem numPieces_spec (info : Info) :
    (info.pieces.length % 20 = 0 →
        info.NumPieces = some (info.pieces.length / 20)) ∧
      (info.pieces.length % 20 ≠ 0 → info.NumPieces = none) := by
  constructor <;> intro h <;> simp [Info.NumPieces, h]

/-- Witness for `numPieces_spec`: a 40-byte pieces string gives 2 pieces;
a 3-byte pieces string panics. -/
theorem numPieces_spec_witness :
    (Info.mk 1 (List.replicate 40 7) "a" 0 []).NumPieces = some 2 ∧
      (Info.mk 1 [1, 2, 3] "a" 0 []).NumPieces = none :=
  ⟨(numPieces_spec (Info.mk 1 (List.replicate 40 7) "a" 0 [])).1 (by decide),
   (numPieces_spec (Info.mk 1 [1, 2, 3] "a" 0 [])).2 (by decide)⟩

/-- C10: `Info.GeneratePieces` with `PieceLength == 0` returns a non-nil
error and leaves the `Info` unchanged, and whenever `GeneratePieces`
returns an error the `Info` is unchanged — `info.Pieces` is only assigned
when hashing completes without error. -/
theorem generatePieces_zero_and_error_unchanged (info : Info)
    (sha1 : List Nat → List Nat) (content : List Nat) (werr : Option String) :
    (info.pieceLength = 0 →
        info.GeneratePieces sha1 content werr =
          (info, some "piece length must be non-zero")) ∧
      (∀ e, (info.GeneratePieces sha1 content werr).2 = some e →
        (info.GeneratePieces sha1 content werr).1 = info) := by
  constructor
  · intro h
    simp [Info.GeneratePieces, h]
  · intro e he
    unfold Info.GeneratePieces at *
    by_cases h0 : info.pieceLength = 0
    · simp [h0]
    · simp only [h0, if_false, if_neg h0] at he ⊢
      rcases hl : generatePiecesLoop sha1 info.pieceLength werr content [] with e' | ps
      · simp [hl]
      · simp [hl] at he

/-- Witness for `generatePieces_zero_and_error_unchanged`: a zero piece
length errors and leaves the record intact; a pipe closed with a write
error propagates that error with the record intact. -/
theorem generatePieces_zero_and_error_unchanged_witness :
    ((Info.mk 0 [9] "a" 1 []).GeneratePieces (fun _ => []) [] none =
        (Info.mk 0 [9] "a" 1 [], some "piece length must be non-zero")) ∧
      ((Info.mk 1 [9] "a" 1 []).GeneratePieces (fun _ => []) [] (some "boom")).2 =
          some "boom" ∧
        ((Info.mk 1 [9] "a" 1 []).GeneratePieces (fun _ => []) [] (some "boom")).1 =
          Info.mk 1 [9] "a" 1 [] :=
  ⟨(generatePieces_zero_and_error_unchanged (Info.mk 0 [9] "a" 1 [])
      (fun _ => []) [] none).1 rfl,
   by unfold Info.GeneratePieces generatePiecesLoop; simp,
   (generatePieces_zero_and_error_unchanged (Info.mk 1 [9] "a" 1 [])
      (fun _ => []) [] (some "boom")).2 "boom"
     (by unfold Info.GeneratePieces generatePiecesLoop; simp)⟩

/-- C8, claim as the spec states it: on a stat failure `BuildFromFile`
swallows the error (returns nil) *and proceeds as if the call succeeded,
generating pieces*.  The second half is false: the function returns
immediately.  Concretely, with old pieces `[1]` and an empty content
stream, the stat-error run returns nil **with the stale pieces `[1]` and
an empty Files list** — whereas any run that actually proceeded past stat
appends a file entry and regenerates the pieces (here to `[]`, the hash
loop over empty content). -/
theorem buildFromFile_statError_counterexample :
    (Info.mk 1 [1] "n" 5 []).BuildFromFile "f" (.error "nope")
        (fun _ => List.replicate 20 0) [] none =
      (Info.mk 1 [1] "f" 5 [], none) ∧
      ((Info.mk 1 [1] "n" 5 []).BuildFromFile "f"
          (.ok { size := 5, isDir := false })
          (fun _ => List.replicate 20 0) [] none).1.pieces = [] := by
  constructor
  · decide
  · unfold Info.BuildFromFile Info.GeneratePieces
    simp [generatePiecesLoop]

/-- C8, amended: for every path on which `os.Stat` fails, `BuildFromFile`
returns a nil error (the stat error is swallowed rather than propagated),
having reset `Name` to the path's base name and cleared `Files`; it
returns immediately without appending a file entry, without touching
`Length`, and without generating pieces. -/
theorem buildFromFile_statError_swallowed (info : Info) (path e : String)
    (sha1 : List Nat → List Nat) (content : List Nat) (werr : Option String) :
    info.BuildFromFile path (.error e) sha1 content werr =
      ({ info with name := filepathBase path, files := [] }, none) := rfl

/-! ## Helper lemmas about the connection model -/

theorem connection.Unchoke_eq (c : connection) :
    c.Unchoke = { c with
                  choked := false,
                  post := c.post ++ (if c.choked then [Message.unchoke] else []) } := by
  cases c
  unfold connection.Unchoke
  split <;> simp_all

theorem connection.Choke_eq (c : connection) :
    c.Choke = { c with
                choked := true,
                post := c.post ++ (if c.choked then [] else [Message.choke]) } := by
  cases c
  unfold connection.Choke
  split <;> simp_all

theorem sendChunk_ok (readAt : Request → Except String (List Nat))
    (bytes : Request → List Nat) (hread : ∀ r, readAt r = .ok (bytes r))
    (c : connection) (r : Request) :
    sendChunk readAt c r =
      ({ c with
          post := c.post ++ [Message.piece r (bytes r)],
          chunksSent := c.chunksSent + 1 }, none) := by
  simp [sendChunk, hread r]

/-- When every storage read succeeds, the `another:` loop behaves exactly
as the spec-side description `uploadLoopSpec`. -/
theorem uploadLoop_eq_spec (seeding : Bool) (bytes : Request → List Nat)
    (readAt : Request → Except String (List Nat))
    (hread : ∀ r, readAt r = .ok (bytes r)) :
    ∀ (reqs : List Request) (c : connection), c.peerRequests = reqs →
      uploadLoop seeding readAt c = uploadLoopSpec seeding bytes c := by
  intro reqs
  induction reqs with
  | nil =>
    rintro ⟨pid, ip, ch, pi, pr, cs, ucr, g, b, tp, mr, po⟩ h
    simp only at h
    subst h
    cases seeding with
    | true =>
      rw [uploadLoop, uploadLoopSpec]
      simp [connection.Unchoke_eq]
    | false =>
      by_cases hlt : cs < ucr + 6
      · rw [uploadLoop, uploadLoopSpec]
        simp [connection.Unchoke_eq, hlt, Nat.not_le.mpr hlt]
      · rw [uploadLoop, uploadLoopSpec]
        simp [hlt]
  | cons r rest ih =>
    rintro ⟨pid, ip, ch, pi, pr, cs, ucr, g, b, tp, mr, po⟩ h
    simp only at h
    subst h
    cases seeding with
    | true =>
      rw [uploadLoop]
      simp only [Bool.true_or, if_true]
      rw [connection.Unchoke_eq]
      rw [sendChunk_ok readAt bytes hread]
      rw [ih _ rfl]
      rw [uploadLoopSpec, uploadLoopSpec]
      simp [List.drop_length, Nat.add_assoc, Nat.add_comm 1 rest.length]
    | false =>
      by_cases hcond : cs < ucr + 6
      · rw [uploadLoop]
        simp only [Bool.false_or, decide_eq_true_eq, hcond, if_true]
        rw [connection.Unchoke_eq]
        rw [sendChunk_ok readAt bytes hread]
        rw [ih _ rfl]
        by_cases h2 : cs + 1 < ucr + 6
        · -- the window is still open after serving r
          rw [uploadLoopSpec, uploadLoopSpec]
          simp only [Bool.false_or, decide_eq_true_eq, h2, hcond, if_true,
            Bool.not_false, Bool.true_and, List.length_cons]
          have hn : min (rest.length + 1) (ucr + 6 - cs) =
              min rest.length (ucr + 6 - (cs + 1)) + 1 := by omega
          rw [hn]
          have harith : cs + (rest.length ⊓ (ucr + 6 - (cs + 1)) + 1) =
              cs + 1 + (rest.length ⊓ (ucr + 6 - (cs + 1))) := by omega
          simp [List.take_succ_cons, List.drop_succ_cons, harith]
          refine ⟨by omega, by omega, ?_⟩
          rw [show cs + (rest.length ⊓ (ucr + 5 - cs) + 1) =
              cs + 1 + rest.length ⊓ (ucr + 5 - cs) from by omega]
        · -- serving r closes the window: the recursive call chokes at once
          rw [uploadLoopSpec, uploadLoopSpec]
          simp only [Bool.false_or, decide_eq_true_eq, h2, hcond, if_true,
            if_false, List.length_cons]
          rw [connection.Choke_eq]
          have hn : min (rest.length + 1) (ucr + 6 - cs) = 1 := by omega
          rw [hn]
          simp only [List.take_succ_cons, List.drop_succ_cons, List.map_cons,
            List.take_zero, List.drop_zero, List.map_nil]
          have hce : ucr + 6 ≤ cs + 1 := by omega
          simp [hce]
      · rw [uploadLoop]
        rw [uploadLoopSpec]
        simp [hcond]

/-! ## Claims C2 and C3 -/

/-- C2, claim as the spec states it: a Request received while we are
choking the peer would fail the connection with a protocol error, and a
Request for a piece we lack would be silently dropped.  The code has
these two outcomes swapped.  Concretely: with the peer interested and the
piece available, a Request while `c.Choked` produces *no* error and no
state change (the `break` without setting `err`); and with the peer
interested, not choked, and the piece missing, the handler sets a
protocol error that terminates the connection. -/
theorem handleRequestMsg_counterexample :
    (handleRequestMsg (fun _ => true) false true true (fun _ => Except.ok [1])
        (connection.mk 1 "a" true true [] 0 0 0 0 [] [] []) (Request.mk 0 0 1) =
      (connection.mk 1 "a" true true [] 0 0 0 0 [] [] [], none)) ∧
      (handleRequestMsg (fun _ => false) false true true (fun _ => Except.ok [1])
          (connection.mk 1 "a" false true [] 0 0 0 0 [] [] []) (Request.mk 0 0 1) =
        (connection.mk 1 "a" false true [] 0 0 0 0 [] [] [],
         some "peer requested piece we don't have")) :=
  ⟨rfl, rfl⟩

/-- C2, amended: for a Request on a running connection — if we are
choking the peer the request is silently ignored (no error, no state
change); if the peer is not interested the connection fails with a
protocol error; if we do not have the requested piece the connection
fails with a protocol error; otherwise the request is inserted into the
peer-requests set (idempotently) and the upload pass runs. -/
theorem handleRequestMsg_spec (havePiece : Nat → Bool)
    (noUpload seeding connHasWantedPieces : Bool)
    (readAt : Request → Except String (List Nat)) (c : connection) (r : Request) :
    (c.choked = true →
        handleRequestMsg havePiece noUpload seeding connHasWantedPieces readAt c r =
          (c, none)) ∧
      (c.choked = false → c.peerInterested = false →
        handleRequestMsg havePiece noUpload seeding connHasWantedPieces readAt c r =
          (c, some "peer sent request but isn't interested")) ∧
      (c.choked = false → c.peerInterested = true → havePiece r.index = false →
        handleRequestMsg havePiece noUpload seeding connHasWantedPieces readAt c r =
          (c, some "peer requested piece we don't have")) ∧
      (c.choked = false → c.peerInterested = true → havePiece r.index = true →
        handleRequestMsg havePiece noUpload seeding connHasWantedPieces readAt c r =
          (upload noUpload seeding connHasWantedPieces readAt
            { c with peerRequests :=
                if r ∈ c.peerRequests then c.peerRequests else c.peerRequests ++ [r] },
           none)) := by
  refine ⟨?_, ?_, ?_, ?_⟩ <;> intros <;> simp_all [handleRequestMsg]

/-- Witness for `handleRequestMsg_spec`: all four arms at concrete
inputs. -/
theorem handleRequestMsg_spec_witness :
    (handleRequestMsg (fun _ => true) false true true (fun _ => Except.ok [1])
        (connection.mk 1 "a" true true [] 0 0 0 0 [] [] []) (Request.mk 0 0 1) =
      (connection.mk 1 "a" true true [] 0 0 0 0 [] [] [], none)) ∧
      (handleRequestMsg (fun _ => true) false true true (fun _ => Except.ok [1])
          (connection.mk 1 "a" false false [] 0 0 0 0 [] [] []) (Request.mk 0 0 1) =
        (connection.mk 1 "a" false false [] 0 0 0 0 [] [] [],
         some "peer sent request but isn't interested")) ∧
      (handleRequestMsg (fun _ => false) false true true (fun _ => Except.ok [1])
          (connection.mk 1 "a" false true [] 0 0 0 0 [] [] []) (Request.mk 0 0 1) =
        (connection.mk 1 "a" false true [] 0 0 0 0 [] [] [],
         some "peer requested piece we don't have")) ∧
      (handleRequestMsg (fun _ => true) true true true (fun _ => Except.ok [1])
          (connection.mk 1 "a" false true [] 0 0 0 0 [] [] []) (Request.mk 0 0 1) =
        (upload true true true (fun _ => Except.ok [1])
          { connection.mk 1 "a" false true [] 0 0 0 0 [] [] [] with
            peerRequests := [Request.mk 0 0 1] },
         none)) :=
  ⟨(handleRequestMsg_spec (fun _ => true) false true true (fun _ => Except.ok [1])
      (connection.mk 1 "a" true true [] 0 0 0 0 [] [] []) (Request.mk 0 0 1)).1 rfl,
   (handleRequestMsg_spec (fun _ => true) false true true (fun _ => Except.ok [1])
      (connection.mk 1 "a" false false [] 0 0 0 0 [] [] []) (Request.mk 0 0 1)).2.1 rfl rfl,
   (handleRequestMsg_spec (fun _ => false) false true true (fun _ => Except.ok [1])
      (connection.mk 1 "a" false true [] 0 0 0 0 [] [] []) (Request.mk 0 0 1)).2.2.1 rfl rfl rfl,
   (handleRequestMsg_spec (fun _ => true) true true true (fun _ => Except.ok [1])
      (connection.mk 1 "a" false true [] 0 0 0 0 [] [] []) (Request.mk 0 0 1)).2.2.2 rfl rfl rfl⟩

/-- C3, claim as the spec states it: with upload enabled and the peer
interested, the upload pass unchokes and serves queued requests while
seeding or within the tit-for-tat window.  The claim omits a third no-op
guard: `if !seeding && !t.connHasWantedPieces(c) { return }`.  Concretely,
with upload enabled, the peer interested, one queued request, counters
`chunksSent = 0 < usefulChunksReceived + 6`, but neither seeding nor any
wanted piece on offer, the pass returns with the peer still choked, the
request still queued, and nothing posted — where the claim demands an
unchoke and a served chunk. -/
theorem upload_counterexample :
    upload false false false (fun _ => Except.ok [9, 9])
        (connection.mk 7 "a" true true [Request.mk 0 0 2] 0 0 0 0 [] [] []) =
      connection.mk 7 "a" true true [Request.mk 0 0 2] 0 0 0 0 [] [] [] :=
  rfl

/-- C3, amended: the upload pass is a no-op if upload is globally
disabled, the peer is not interested, or we are neither seeding nor hold
a piece the peer wants; otherwise (when every storage read succeeds),
while seeding or `chunksSent < usefulChunksReceived + 6` the peer is
unchoked and queued peer-requests are served in insertion order (post a
Piece message with the bytes read, remove the request, increment
chunks-sent), the number served being limited by the window when not
seeding; the peer ends choked exactly when the 6-chunk window is
exhausted (`uploadSpec`/`uploadLoopSpec` spell this out). -/
theorem upload_eq_uploadSpec (noUpload seeding connHasWantedPieces : Bool)
    (readAt : Request → Except String (List Nat)) (bytes : Request → List Nat)
    (hread : ∀ r, readAt r = .ok (bytes r)) (c : connection) :
    upload noUpload seeding connHasWantedPieces readAt c =
      uploadSpec noUpload seeding connHasWantedPieces bytes c := by
  unfold upload uploadSpec
  split
  · rfl
  · split
    · rfl
    · split
      · rfl
      · exact uploadLoop_eq_spec seeding bytes readAt hread c.peerRequests c rfl

/-- Witness for `upload_eq_uploadSpec`: a seeding pass over two queued
requests, with reads returning the request length in 7s. -/
theorem upload_eq_uploadSpec_witness :
    upload false true false (fun r => Except.ok (List.replicate r.length 7))
        (connection.mk 7 "a" true true [Request.mk 0 0 2, Request.mk 0 2 2] 0 0 0 0 [] [] []) =
      uploadSpec false true false (fun r => List.replicate r.length 7)
        (connection.mk 7 "a" true true [Request.mk 0 0 2, Request.mk 0 2 2] 0 0 0 0 [] [] []) :=
  upload_eq_uploadSpec false true false _ _ (fun _ => rfl) _

/-! ## Claim C1 -/

/-- C1, claim as the spec states it: when `EverHashed` was false before
the check, no peer scoring would occur.  False: the `EverHashed` guard in
`pieceHashed` covers only the two expvar counters and the log line; the
scoring runs unconditionally after it.  Concretely, with a single
connection that touched piece 0 and `EverHashed = false`: an incorrect
hash bumps the toucher's bad-dirtied counter to 1, bans its IP and drops
the connection, and a correct hash bumps its good-dirtied counter to
1. -/
theorem pieceHashed_firstCheck_counterexample :
    ((HashState.mk [Piece.mk [] false]
        [connection.mk 1 "1.2.3.4" true false [] 0 0 0 0 [0] [] []]
        [] [] 0 0).pieces.getD 0 { hash := [], everHashed := false }).everHashed
        = false ∧
      ((pieceHashed (HashState.mk [Piece.mk [] false]
          [connection.mk 1 "1.2.3.4" true false [] 0 0 0 0 [0] [] []]
          [] [] 0 0) 0 false).badPeerIPs = ["1.2.3.4"] ∧
        (pieceHashed (HashState.mk [Piece.mk [] false]
          [connection.mk 1 "1.2.3.4" true false [] 0 0 0 0 [0] [] []]
          [] [] 0 0) 0 false).conns = [] ∧
        (pieceHashed (HashState.mk [Piece.mk [] false]
          [connection.mk 1 "1.2.3.4" true false [] 0 0 0 0 [0] [] []]
          [] [] 0 0) 0 false).dropped.map (fun c => c.badPiecesDirtied) = [1]) ∧
      (pieceHashed (HashState.mk [Piece.mk [] false]
          [connection.mk 1 "1.2.3.4" true false [] 0 0 0 0 [0] [] []]
          [] [] 0 0) 0 true).conns.map (fun c => c.goodPiecesDirtied) = [1] := by
  refine ⟨rfl, ⟨rfl, rfl, rfl⟩, rfl⟩

/-- C1, amended: the first-ever hash check (`EverHashed` was false)
differs from a repeat check only in that the global
hashed-correct/not-correct statistics counters are left untouched (and
nothing is logged); the peer scoring — good-dirtied increments on a
correct hash, and bad-dirtied increments, IP bans and connection drops on
an incorrect one — happens exactly as it would had `EverHashed` already
been set. -/
theorem pieceHashed_everHashed_gates_only_stats (st : HashState) (piece : Nat)
    (correct : Bool) (hp : piece < st.pieces.length)
    (h : (st.pieces.getD piece { hash := [], everHashed := false }).everHashed
      = false) :
    pieceHashed st piece correct =
      { (pieceHashed
          { st with
            pieces := st.pieces.set piece
                        (Piece.mk (st.pieces.getD piece
                          (Piece.mk [] false)).hash true) } piece correct) with
        pieceHashedCorrect := st.pieceHashedCorrect,
        pieceHashedNotCorrect := st.pieceHashedNotCorrect } := by
  unfold pieceHashed
  rw [List.getD_eq_getElem _ _ hp] at h ⊢
  rw [List.getD_eq_getElem _ _ (by simpa using hp)]
  rw [List.getElem_set_self _]
  simp only [h, List.set_set, Bool.false_and, Bool.and_self, if_false,
    Bool.true_and, Bool.false_eq_true, if_neg]
  cases correct with
  | true => simp
  | false =>
    simp only [Bool.not_false, Bool.and_true, if_true, Bool.not_true,
      Bool.and_false, if_false]
    by_cases hc : (reapPieceTouches st.conns piece).1.length ≠ 0 <;> simp [hc]

/-- Witness for `pieceHashed_everHashed_gates_only_stats`: the
single-toucher, incorrect-hash state of the counterexample. -/
theorem pieceHashed_everHashed_gates_only_stats_witness :
    pieceHashed (HashState.mk [Piece.mk [] false]
        [connection.mk 1 "1.2.3.4" true false [] 0 0 0 0 [0] [] []]
        [] [] 0 0) 0 false =
      { (pieceHashed
          { HashState.mk [Piece.mk [] false]
              [connection.mk 1 "1.2.3.4" true false [] 0 0 0 0 [0] [] []]
              [] [] 0 0 with
            pieces := [Piece.mk [] false].set 0
                        (Piece.mk ([Piece.mk [] false].getD 0
                          (Piece.mk [] false)).hash true) } 0 false) with
        pieceHashedCorrect := 0,
        pieceHashedNotCorrect := 0 } :=
  pieceHashed_everHashed_gates_only_stats
    (HashState.mk [Piece.mk [] false]
      [connection.mk 1 "1.2.3.4" true false [] 0 0 0 0 [0] [] []] [] [] 0 0)
    0 false (by decide) (by decide)

/-! ## Claim C5 -/

theorem addConnection_nodup (cap : Nat) (closed seeding needData : Bool)
    (w : Option Nat) (conns : List connection) (c : connection)
    (p : List connection × Bool)
    (h : addConnection cap closed seeding needData w conns c = some p)
    (hnd : (conns.map connection.peerId).Nodup) :
    (p.1.map connection.peerId).Nodup := by
  unfold addConnection at h
  split at h
  · simp only [Option.some.injEq] at h; subst h; exact hnd
  · split at h
    · simp only [Option.some.injEq] at h; subst h; exact hnd
    · split at h
      · simp only [Option.some.injEq] at h; subst h; exact hnd
      · rename_i hdup
        have hnotin : c.peerId ∉ conns.map connection.peerId := by
          intro hmem
          rcases List.mem_map.1 hmem with ⟨c0, hc0, he⟩
          refine hdup (List.any_eq_true.mpr ⟨c0, hc0, ?_⟩)
          rw [beq_iff_eq]
          exact he.symm
        split at h
        · rcases hw : worstBadConn conns w with _ | c0
          · simp only [hw, Option.some.injEq] at h
            subst h; exact hnd
          · simp only [hw] at h
            split at h
            · exact absurd h (by simp)
            · simp only [Option.some.injEq] at h; subst h
              simp only [List.map_append, List.map_cons, List.map_nil]
              rw [List.nodup_append]
              refine ⟨List.Nodup.sublist
                  ((List.erase_sublist c0 conns).map connection.peerId) hnd,
                List.nodup_singleton _, ?_⟩
              intro a ha hb
              simp only [List.mem_singleton] at hb
              subst hb
              exact hnotin (((List.erase_sublist c0 conns).map
                connection.peerId).mem ha)
        · simp only [Option.some.injEq] at h; subst h
          simp only [List.map_append, List.map_cons, List.map_nil]
          rw [List.nodup_append]
          exact ⟨hnd, List.nodup_singleton _,
            fun a ha hb => by
              simp only [List.mem_singleton] at hb
              subst hb
              exact hnotin ha⟩

theorem connStep_nodup (cap : Nat) (conns : List connection) (op : ConnOp)
    (s : List connection) (hnd : (conns.map connection.peerId).Nodup)
    (hs : connStep cap conns op = some s) : (s.map connection.peerId).Nodup := by
  cases op with
  | drop c =>
    simp only [connStep, Option.some.injEq] at hs
    subst hs
    exact List.Nodup.sublist
      ((List.erase_sublist c conns).map connection.peerId) hnd
  | add c closed seeding needData w =>
    simp only [connStep, Option.map_eq_some'] at hs
    obtain ⟨p, hp, rfl⟩ := hs
    exact addConnection_nodup cap closed seeding needData w conns c p hp hnd

theorem connRun_nodup (cap : Nat) :
    ∀ (ops : List ConnOp) (acc : Option (List connection))
      (hacc : ∀ s0, acc = some s0 → (s0.map connection.peerId).Nodup)
      (s : List connection),
      ops.foldl
        (fun acc op => acc.bind (fun conns => connStep cap conns op)) acc =
          some s →
      (s.map connection.peerId).Nodup := by
  intro ops
  induction ops with
  | nil =>
    intro acc hacc s h
    exact hacc s h
  | cons op ops ih =>
    intro acc hacc s h
    refine ih _ ?_ s h
    intro s0 h0
    simp only [Option.bind_eq_some] at h0
    obtain ⟨s1, hs1, hstep⟩ := h0
    exact connStep_nodup cap s1 op s0 (hacc s1 hs1) hstep

/-- C5: for every torrent, across any sequence of connection additions
and removals started from the empty connection list, the connected peers
have pairwise distinct peer-ids; and `addConnection` rejects (returns the
list unchanged with `false`) whenever some existing connection already
carries the candidate's peer-id. -/
theorem connections_nodup_peerId (cap : Nat) :
    (∀ (ops : List ConnOp) (s : List connection),
        connRun cap ops = some s → (s.map connection.peerId).Nodup) ∧
      (∀ (conns : List connection) (c : connection)
          (closed seeding needData : Bool) (w : Option Nat),
        (∃ c0 ∈ conns, c0.peerId = c.peerId) →
        addConnection cap closed seeding needData w conns c =
          some (conns, false)) := by
  constructor
  · intro ops s h
    exact connRun_nodup cap ops (some [])
      (fun s0 h0 => by simp at h0; subst h0; simp) s h
  · intro conns c closed seeding needData w ⟨c0, hc0, hid⟩
    unfold addConnection
    split
    · rfl
    · split
      · rfl
      · split
        · rfl
        · rename_i hdup
          exact absurd (List.any_eq_true.mpr ⟨c0, hc0, by simp [hid]⟩) hdup

/-- Witness for `connections_nodup_peerId`: a two-step run and a
duplicate rejection at concrete connections. -/
theorem connections_nodup_peerId_witness :
    (([connection.mk 1 "a" true false [] 0 0 0 0 [] [] [],
        connection.mk 2 "b" true false [] 0 0 0 0 [] [] []].map
          connection.peerId).Nodup) ∧
      addConnection 80 false true true none
          [connection.mk 1 "a" true false [] 0 0 0 0 [] [] []]
          (connection.mk 1 "c" true false [] 0 0 0 0 [] [] []) =
        some ([connection.mk 1 "a" true false [] 0 0 0 0 [] [] []], false) :=
  ⟨(connections_nodup_peerId 80).1
      [ConnOp.add (connection.mk 1 "a" true false [] 0 0 0 0 [] [] [])
          false true true none,
        ConnOp.add (connection.mk 2 "b" true false [] 0 0 0 0 [] [] [])
          false true true none]
      [connection.mk 1 "a" true false [] 0 0 0 0 [] [] [],
        connection.mk 2 "b" true false [] 0 0 0 0 [] [] []] rfl,
   (connections_nodup_peerId 80).2
      [connection.mk 1 "a" true false [] 0 0 0 0 [] [] []]
      (connection.mk 1 "c" true false [] 0 0 0 0 [] [] [])
      false true true none
      (by exact ⟨connection.mk 1 "a" true false [] 0 0 0 0 [] [] [],
        by simp, rfl⟩)⟩

/-! ## Claim C6 -/

/-- C6: for a `ut_metadata` data message, the metadata-piece bytes start
at byte offset `len(payload) - pieceSize` in the payload (`pieceSize`
being `metadataPieceSize(total_size, piece)`): when that offset is out of
range (negative or ≥ `len(payload)`) the handler returns an error that
fails the connection and the torrent's metadata state is untouched, and
when it is in range (on a requested piece) exactly the bytes from that
offset on are saved. -/
theorem gotMetadataExtensionMsg_data_offset (sha1ok : List Nat → Bool)
    (piece totalSize : Int) (payload : List Nat) (t : TorrentMeta)
    (c : connection) :
    (((payload.length : Int) - metadataPieceSize totalSize piece < 0 ∨
        (payload.length : Int) - metadataPieceSize totalSize piece ≥
          (payload.length : Int)) →
      (gotMetadataExtensionMsg sha1ok (some DataMetadataExtensionMsgType)
          piece totalSize payload t c).2.2.isSome = true ∧
        (gotMetadataExtensionMsg sha1ok (some DataMetadataExtensionMsgType)
          piece totalSize payload t c).1 = t) ∧
      (requestedMetadataPiece c piece = true →
        ¬((payload.length : Int) - metadataPieceSize totalSize piece < 0 ∨
          (payload.length : Int) - metadataPieceSize totalSize piece ≥
            (payload.length : Int)) →
        (gotMetadataExtensionMsg sha1ok (some DataMetadataExtensionMsgType)
            piece totalSize payload t c).1 =
          maybeMetadataCompleted sha1ok (saveMetadataPiece t piece
            (payload.drop
              ((payload.length : Int) -
                metadataPieceSize totalSize piece).toNat)) ∧
          (gotMetadataExtensionMsg sha1ok (some DataMetadataExtensionMsgType)
            piece totalSize payload t c).2.2 = none) := by
  constructor
  · intro hrange
    have hcond : (payload.length : Int) < metadataPieceSize totalSize piece ∨
        metadataPieceSize totalSize piece ≤ 0 := by omega
    unfold gotMetadataExtensionMsg
    by_cases hreq : requestedMetadataPiece c piece
    · simp [hreq, hcond]
    · simp [hreq]
  · intro hreq hrange
    have hcond : ¬((payload.length : Int) < metadataPieceSize totalSize piece ∨
        metadataPieceSize totalSize piece ≤ 0) := by omega
    unfold gotMetadataExtensionMsg
    simp [hreq, hcond]

/-- Witness for `gotMetadataExtensionMsg_data_offset`: an empty payload
announcing a 1-byte piece (offset −1: error, state untouched), and a
2-byte payload carrying a full 2-byte metadata dictionary (offset 0: both
bytes are saved). -/
theorem gotMetadataExtensionMsg_data_offset_witness :
    ((gotMetadataExtensionMsg (fun _ => false)
        (some DataMetadataExtensionMsgType) 0 1 []
        (TorrentMeta.mk [0] [false] false)
        (connection.mk 1 "a" true false [] 0 0 0 0 [] [true] [])).2.2.isSome
        = true ∧
      (gotMetadataExtensionMsg (fun _ => false)
        (some DataMetadataExtensionMsgType) 0 1 []
        (TorrentMeta.mk [0] [false] false)
        (connection.mk 1 "a" true false [] 0 0 0 0 [] [true] [])).1 =
        TorrentMeta.mk [0] [false] false) ∧
      ((gotMetadataExtensionMsg (fun _ => false)
          (some DataMetadataExtensionMsgType) 0 2 [7, 8]
          (TorrentMeta.mk [0, 0] [false] false)
          (connection.mk 1 "a" true false [] 0 0 0 0 [] [true] [])).1 =
        maybeMetadataCompleted (fun _ => false)
          (saveMetadataPiece (TorrentMeta.mk [0, 0] [false] false) 0
            ([7, 8].drop (((2 : Int) - metadataPieceSize 2 0).toNat))) ∧
        (gotMetadataExtensionMsg (fun _ => false)
          (some DataMetadataExtensionMsgType) 0 2 [7, 8]
          (TorrentMeta.mk [0, 0] [false] false)
          (connection.mk 1 "a" true false [] 0 0 0 0 [] [true] [])).2.2 =
          none) :=
  ⟨(gotMetadataExtensionMsg_data_offset (fun _ => false) 0 1 []
      (TorrentMeta.mk [0] [false] false)
      (connection.mk 1 "a" true false [] 0 0 0 0 [] [true] [])).1
      (by decide),
   (gotMetadataExtensionMsg_data_offset (fun _ => false) 0 2 [7, 8]
      (TorrentMeta.mk [0, 0] [false] false)
      (connection.mk 1 "a" true false [] 0 0 0 0 [] [true] [])).2
      (by decide) (by decide)⟩

/-! ## Claim C7: helper lemmas on the torrents association list -/

theorem lookup_update_self (l : List (Nat × Torrent)) (ih : Nat)
    (f : Torrent → Torrent) :
    lookupTorrent (updateTorrent l ih f) ih = (lookupTorrent l ih).map f := by
  induction l with
  | nil => rfl
  | cons kt rest ihl =>
    obtain ⟨k, t⟩ := kt
    by_cases hk : k = ih <;> simp [updateTorrent, lookupTorrent, hk, ihl]

theorem update_update (l : List (Nat × Torrent)) (ih : Nat)
    (f g : Torrent → Torrent) :
    updateTorrent (updateTorrent l ih f) ih g =
      updateTorrent l ih (fun t => g (f t)) := by
  induction l with
  | nil => rfl
  | cons kt rest ihl =>
    obtain ⟨k, t⟩ := kt
    by_cases hk : k = ih <;> simp [updateTorrent, hk, ihl]

theorem update_id (l : List (Nat × Torrent)) (ih : Nat) (f : Torrent → Torrent)
    (h : ∀ t, lookupTorrent l ih = some t → f t = t) :
    updateTorrent l ih f = l := by
  induction l with
  | nil => rfl
  | cons kt rest ihl =>
    obtain ⟨k, t⟩ := kt
    by_cases hk : k = ih
    · subst hk
      have hf : f t = t := h t (by simp [lookupTorrent])
      simp [updateTorrent, hf]
    · simp only [updateTorrent, if_neg hk, List.cons.injEq, true_and]
      exact ihl (fun t' ht' => h t' (by simp [lookupTorrent, if_neg hk, ht']))

theorem update_map_fst (l : List (Nat × Torrent)) (ih : Nat)
    (f : Torrent → Torrent) :
    (updateTorrent l ih f).map Prod.fst = l.map Prod.fst := by
  induction l with
  | nil => rfl
  | cons kt rest ihl =>
    obtain ⟨k, t⟩ := kt
    by_cases hk : k = ih <;> simp [updateTorrent, hk, ihl]

theorem lookup_append_fresh (l : List (Nat × Torrent)) (ih : Nat) (t : Torrent)
    (h : lookupTorrent l ih = none) :
    lookupTorrent (l ++ [(ih, t)]) ih = some t := by
  induction l with
  | nil => simp [lookupTorrent]
  | cons kt rest ihl =>
    obtain ⟨k, t'⟩ := kt
    by_cases hk : k = ih
    · simp [lookupTorrent, hk] at h
    · simp only [lookupTorrent, hk, if_neg hk, List.cons_append] at h ⊢
      exact ihl h

theorem lookup_none_not_mem (l : List (Nat × Torrent)) (ih : Nat)
    (h : lookupTorrent l ih = none) : ih ∉ l.map Prod.fst := by
  induction l with
  | nil => simp
  | cons kt rest ihl =>
    obtain ⟨k, t⟩ := kt
    by_cases hk : k = ih
    · simp [lookupTorrent, hk] at h
    · simp only [lookupTorrent, if_neg hk] at h
      simp only [List.map_cons, List.mem_cons]
      exact fun hc => hc.elim (fun he => hk he.symm) (ihl h)

theorem lookup_some_mem (l : List (Nat × Torrent)) (ih : Nat) (t : Torrent)
    (h : lookupTorrent l ih = some t) : ih ∈ l.map Prod.fst := by
  induction l with
  | nil => simp [lookupTorrent] at h
  | cons kt rest ihl =>
    obtain ⟨k, t'⟩ := kt
    by_cases hk : k = ih
    · simp [hk]
    · simp only [lookupTorrent, if_neg hk] at h
      simp only [List.map_cons, List.mem_cons]
      exact Or.inr (ihl h)

theorem filter_key_length (l : List (Nat × Torrent)) (ih : Nat) :
    (l.filter (fun kt => kt.1 = ih)).length = (l.map Prod.fst).count ih := by
  induction l with
  | nil => rfl
  | cons kt rest ihl =>
    obtain ⟨k, t⟩ := kt
    simp only [List.filter_cons, List.map_cons, List.count_cons, ihl]
    by_cases hk : k = ih
    · simp [hk]
      exact ihl
    · simp [hk, Ne.symm hk]
      exact ihl

theorem getD_range_map (f : Nat → List String) (n i : Nat) :
    (((List.range n).map f).getD i []) = if i < n then f i else [] := by
  by_cases h : i < n
  · rw [List.getD_eq_getElem _ _ (by simpa using h)]
    simp [h]
  · rw [List.getD_eq_default]
    · simp [h]
    · simpa using Nat.le_of_not_lt h

theorem mergeTier_idem (old new : List String) :
    mergeTier (mergeTier old new) new = mergeTier old new := by
  unfold mergeTier
  have : new.filter
      (fun u => !decide (u ∈ old ++ new.filter (fun v => !decide (v ∈ old))))
        = [] := by
    rw [List.filter_eq_nil_iff]
    intro u hu
    simp only [List.mem_append, List.mem_filter]
    by_cases ho : u ∈ old
    · simp [ho]
    · simp [ho, hu]
  rw [this, List.append_nil]

theorem addTrackers_idem (t : Torrent) (al : List (List String)) :
    addTrackers (addTrackers t al) al = addTrackers t al := by
  unfold addTrackers
  simp only [List.length_map, List.length_range]
  congr 1
  rw [max_eq_left (le_max_right t.trackers.length al.length)]
  apply List.map_congr_left
  intro i hi
  simp only [List.mem_range] at hi
  rw [getD_range_map _ _ i]
  simp only [hi, if_pos]
  exact mergeTier_idem _ _

theorem lookup_wf (l : List (Nat × Torrent)) (ih : Nat) (t : Torrent)
    (hwf : ∀ kt ∈ l, (kt : Nat × Torrent).2.infoHash = kt.1)
    (h : lookupTorrent l ih = some t) : t.infoHash = ih := by
  induction l with
  | nil => simp [lookupTorrent] at h
  | cons kt rest ihl =>
    obtain ⟨k, t'⟩ := kt
    by_cases hk : k = ih
    · subst hk
      have ht : t' = t := by simpa [lookupTorrent] using h
      subst ht
      exact hwf (k, t') (by simp)
    · simp only [lookupTorrent, if_neg hk] at h
      exact ihl (fun kt hkt => hwf kt (List.mem_cons_of_mem _ hkt)) h

theorem SetInfoBytes_ok (hash : List Nat → Nat) (t : Torrent) (b : List Nat)
    (h : hash b = t.infoHash) :
    (SetInfoBytes hash t b).2 = none ∧
      (SetInfoBytes hash t b).1.info.isSome = true ∧
      (SetInfoBytes hash t b).1.displayName = t.displayName ∧
      (SetInfoBytes hash t b).1.chunkSize = t.chunkSize ∧
      (SetInfoBytes hash t b).1.trackers = t.trackers ∧
      (SetInfoBytes hash t b).1.infoHash = t.infoHash := by
  unfold SetInfoBytes
  by_cases hs : t.info.isSome = true
  · simp [hs]
  · simp [hs, h]

/-- What one `AddTorrentSpec` pass (after `AddTorrentInfoHash`) leaves
behind: no error, unchanged keys, and a stored torrent already carrying
the spec's display name, info, chunk size and merged trackers. -/
theorem addTorrentSpecSteps_spec (hash : List Nat → Nat) (cl1 : ClientT)
    (spec : TorrentSpec) (t0 : Torrent)
    (hlk : lookupTorrent cl1.torrents spec.infoHash = some t0)
    (hwf0 : t0.infoHash = spec.infoHash)
    (hhash : ∀ b, spec.info = some b → hash b = spec.infoHash) :
    (addTorrentSpecSteps hash cl1 spec).2 = none ∧
      (addTorrentSpecSteps hash cl1 spec).1.torrents.map Prod.fst =
        cl1.torrents.map Prod.fst ∧
      ∃ t1, lookupTorrent (addTorrentSpecSteps hash cl1 spec).1.torrents
          spec.infoHash = some t1 ∧
        (spec.displayName ≠ "" → t1.displayName = spec.displayName) ∧
        (spec.info.isSome → t1.info.isSome = true) ∧
        (spec.chunkSize ≠ 0 → t1.chunkSize = spec.chunkSize) ∧
        addTrackers t1 spec.trackers = t1 := by
  have hf1 : lookupTorrent (updateTorrent cl1.torrents spec.infoHash
      (fun t => if spec.displayName ≠ "" then SetDisplayName t spec.displayName
        else t)) spec.infoHash =
      some (if spec.displayName ≠ "" then SetDisplayName t0 spec.displayName
        else t0) := by
    rw [lookup_update_self, hlk]; rfl
  rcases hi : spec.info with _ | b
  · -- no info dictionary in the spec
    simp only [addTorrentSpecSteps, hi]
    refine ⟨by trivial, by simp [update_map_fst], ?_⟩
    have hlookD : lookupTorrent (updateTorrent (updateTorrent (updateTorrent
        cl1.torrents spec.infoHash
        (fun t => if spec.displayName ≠ "" then SetDisplayName t spec.displayName
          else t)) spec.infoHash
        (fun t => if spec.chunkSize ≠ 0 then
          { t with chunkSize := spec.chunkSize } else t)) spec.infoHash
        (fun t => addTrackers t spec.trackers)) spec.infoHash =
        some (addTrackers (if spec.chunkSize ≠ 0 then
            { (if spec.displayName ≠ "" then SetDisplayName t0 spec.displayName
                else t0) with chunkSize := spec.chunkSize }
          else (if spec.displayName ≠ "" then
            SetDisplayName t0 spec.displayName else t0)) spec.trackers) := by
      rw [lookup_update_self, lookup_update_self, hf1]
      rfl
    refine ⟨_, hlookD, ?_, ?_, ?_, ?_⟩
    · intro hdn
      by_cases hcs : spec.chunkSize ≠ 0 <;>
        simp [addTrackers, hdn, hcs, SetDisplayName]
    · intro hsome
      simp [hi] at hsome
    · intro hcs
      simp [addTrackers, hcs]
    · exact addTrackers_idem _ _
  · -- the spec carries info bytes
    have hih1 : (if spec.displayName ≠ "" then SetDisplayName t0 spec.displayName
        else t0).infoHash = spec.infoHash := by
      by_cases hdn : spec.displayName ≠ "" <;> simp [hdn, SetDisplayName, hwf0]
    have hok := SetInfoBytes_ok hash
      (if spec.displayName ≠ "" then SetDisplayName t0 spec.displayName else t0)
      b (by rw [hhash b hi, hih1])
    rcases hSB : SetInfoBytes hash
        (if spec.displayName ≠ "" then SetDisplayName t0 spec.displayName
          else t0) b with ⟨tB, eB⟩
    rw [hSB] at hok
    obtain ⟨heB, hBinfo, hBdn, hBcs, hBtr, hBih⟩ := hok
    simp only at heB hBinfo hBdn hBcs hBtr hBih
    subst heB
    simp only [addTorrentSpecSteps, hi, setInfoBytesAt, hf1, hSB]
    refine ⟨by trivial, by simp [update_map_fst], ?_⟩
    have hlookD : lookupTorrent (updateTorrent (updateTorrent (updateTorrent
        (updateTorrent cl1.torrents spec.infoHash
          (fun t => if spec.displayName ≠ "" then
            SetDisplayName t spec.displayName else t)) spec.infoHash
        (fun _ => tB)) spec.infoHash
        (fun t => if spec.chunkSize ≠ 0 then
          { t with chunkSize := spec.chunkSize } else t)) spec.infoHash
        (fun t => addTrackers t spec.trackers)) spec.infoHash =
        some (addTrackers (if spec.chunkSize ≠ 0 then
            { tB with chunkSize := spec.chunkSize } else tB) spec.trackers) := by
      rw [lookup_update_self, lookup_update_self, lookup_update_self, hf1]
      rfl
    refine ⟨_, hlookD, ?_, ?_, ?_, ?_⟩
    · intro hdn
      by_cases hcs : spec.chunkSize ≠ 0 <;>
        simp [addTrackers, hcs, hBdn, hdn, SetDisplayName]
    · intro _
      by_cases hcs : spec.chunkSize ≠ 0 <;> simp [addTrackers, hcs, hBinfo]
    · intro hcs
      simp [addTrackers, hcs]
    · exact addTrackers_idem _ _

/-- A second pass over a torrent already in its post-`AddTorrentSpec`
state changes nothing and reports no error. -/
theorem addTorrentSpecSteps_noop (hash : List Nat → Nat) (cl1 : ClientT)
    (spec : TorrentSpec) (t1 : Torrent)
    (hlk : lookupTorrent cl1.torrents spec.infoHash = some t1)
    (hdn : spec.displayName ≠ "" → t1.displayName = spec.displayName)
    (hinfo : spec.info.isSome → t1.info.isSome = true)
    (hcs : spec.chunkSize ≠ 0 → t1.chunkSize = spec.chunkSize)
    (htr : addTrackers t1 spec.trackers = t1) :
    addTorrentSpecSteps hash cl1 spec = (cl1, none) := by
  have hid1 : updateTorrent cl1.torrents spec.infoHash
      (fun t => if spec.displayName ≠ "" then SetDisplayName t spec.displayName
        else t) = cl1.torrents := by
    apply update_id
    intro t ht
    rw [hlk] at ht
    injection ht with ht
    subst ht
    by_cases hdn' : spec.displayName ≠ ""
    · have := hdn hdn'
      cases t1
      simp_all [SetDisplayName]
    · simp [hdn']
  have hid3 : updateTorrent cl1.torrents spec.infoHash
      (fun t => if spec.chunkSize ≠ 0 then { t with chunkSize := spec.chunkSize }
        else t) = cl1.torrents := by
    apply update_id
    intro t ht
    rw [hlk] at ht
    injection ht with ht
    subst ht
    by_cases hcs' : spec.chunkSize ≠ 0
    · have := hcs hcs'
      cases t1
      simp_all
    · simp [hcs']
  have hid4 : updateTorrent cl1.torrents spec.infoHash
      (fun t => addTrackers t spec.trackers) = cl1.torrents := by
    apply update_id
    intro t ht
    rw [hlk] at ht
    injection ht with ht
    subst ht
    exact htr
  rcases hi : spec.info with _ | b
  · simp only [addTorrentSpecSteps, hi, hid1,
      show ClientT.mk cl1.torrents = cl1 from rfl, hid3, hid4]
  · have hSB : SetInfoBytes hash t1 b = (t1, none) := by
      unfold SetInfoBytes
      simp [hinfo (by simp [hi])]
    have hidB : updateTorrent cl1.torrents spec.infoHash (fun _ => t1) =
        cl1.torrents := by
      apply update_id
      intro t ht
      rw [hlk] at ht
      exact Option.some.inj ht
    simp only [addTorrentSpecSteps, hi, hid1,
      show ClientT.mk cl1.torrents = cl1 from rfl, setInfoBytesAt, hlk, hSB,
      hidB, hid3, hid4]

/-- C7: adding the same torrent spec twice is idempotent.  The first
call succeeds (`err = nil`); the second call returns the client state
unchanged (hence the same torrent: trackers merge to nothing new and the
info dictionary is not set again) with `new = false` and no error; and
the torrents map holds exactly one entry for the spec's info-hash. -/
theorem addTorrentSpec_idempotent (hash : List Nat → Nat) (cl : ClientT)
    (spec : TorrentSpec)
    (hkeys : (cl.torrents.map Prod.fst).Nodup)
    (hwf : ∀ kt ∈ cl.torrents, (kt : Nat × Torrent).2.infoHash = kt.1)
    (hhash : ∀ b, spec.info = some b → hash b = spec.infoHash) :
    (AddTorrentSpec hash cl spec).2.2 = none ∧
      AddTorrentSpec hash (AddTorrentSpec hash cl spec).1 spec =
        ((AddTorrentSpec hash cl spec).1, false, none) ∧
      ((AddTorrentSpec hash cl spec).1.torrents.filter
        (fun kt => kt.1 = spec.infoHash)).length = 1 := by
  have main : ∀ (cl0 : ClientT) (isNew : Bool),
      AddTorrentInfoHash cl spec.infoHash = (cl0, isNew) →
      (∃ t0, lookupTorrent cl0.torrents spec.infoHash = some t0 ∧
        t0.infoHash = spec.infoHash) →
      ((cl0.torrents.map Prod.fst).count spec.infoHash = 1) →
      (AddTorrentSpec hash cl spec).2.2 = none ∧
        AddTorrentSpec hash (AddTorrentSpec hash cl spec).1 spec =
          ((AddTorrentSpec hash cl spec).1, false, none) ∧
        ((AddTorrentSpec hash cl spec).1.torrents.filter
          (fun kt => kt.1 = spec.infoHash)).length = 1 := by
    intro cl0 isNew he0 ⟨t0, hlk0, hwf0⟩ hcnt0
    obtain ⟨hsteps_err, hsteps_keys, t1, hlk1, hdn1, hinfo1, hcs1, htr1⟩ :=
      addTorrentSpecSteps_spec hash cl0 spec t0 hlk0 hwf0 hhash
    have er1 : AddTorrentSpec hash cl spec =
        ((addTorrentSpecSteps hash cl0 spec).1, isNew,
          (addTorrentSpecSteps hash cl0 spec).2) := by
      unfold AddTorrentSpec
      rw [he0]
    refine ⟨by rw [er1]; exact hsteps_err, ?_, ?_⟩
    · have er2a : AddTorrentInfoHash (AddTorrentSpec hash cl spec).1
          spec.infoHash = ((AddTorrentSpec hash cl spec).1, false) := by
        unfold AddTorrentInfoHash
        rw [er1]
        simp only [hlk1]
      have enoop : addTorrentSpecSteps hash (AddTorrentSpec hash cl spec).1
          spec = ((AddTorrentSpec hash cl spec).1, none) := by
        apply addTorrentSpecSteps_noop hash _ spec t1 _ hdn1 hinfo1 hcs1 htr1
        rw [er1]
        exact hlk1
      have eAS : ∀ X : ClientT, AddTorrentSpec hash X spec =
          ((addTorrentSpecSteps hash
              (AddTorrentInfoHash X spec.infoHash).1 spec).1,
            (AddTorrentInfoHash X spec.infoHash).2,
            (addTorrentSpecSteps hash
              (AddTorrentInfoHash X spec.infoHash).1 spec).2) :=
        fun X => rfl
      conv_lhs => rw [eAS]
      simp only [er2a, enoop]
    · rw [er1]
      simp only [filter_key_length, hsteps_keys, hcnt0]
  rcases hl0 : lookupTorrent cl.torrents spec.infoHash with _ | t0
  · -- fresh info-hash: a new torrent is inserted
    refine main (ClientT.mk (cl.torrents ++
        [(spec.infoHash, newTorrent spec.infoHash)])) true ?_ ?_ ?_
    · unfold AddTorrentInfoHash
      rw [hl0]
    · exact ⟨newTorrent spec.infoHash,
        lookup_append_fresh cl.torrents spec.infoHash _ hl0, rfl⟩
    · simp only [List.map_append, List.map_cons, List.map_nil,
        List.count_append]
      rw [List.count_eq_zero_of_not_mem (lookup_none_not_mem _ _ hl0)]
      simp
  · -- the torrent is already present
    refine main cl false ?_ ?_ ?_
    · unfold AddTorrentInfoHash
      rw [hl0]
    · exact ⟨t0, hl0, lookup_wf cl.torrents spec.infoHash t0 hwf hl0⟩
    · exact List.count_eq_one_of_mem hkeys
        (lookup_some_mem cl.torrents spec.infoHash t0 hl0)

/-- Witness for `addTorrentSpec_idempotent`: an empty client and a spec
carrying one tracker tier and a 1-byte info dictionary hashing to the
spec's info-hash. -/
theorem addTorrentSpec_idempotent_witness :
    ((AddTorrentSpec (fun _ => 5) (ClientT.mk [])
        (TorrentSpec.mk [["udp://tr"]] 5 (some [9]) "dn" 0)).2.2 = none ∧
      AddTorrentSpec (fun _ => 5)
          (AddTorrentSpec (fun _ => 5) (ClientT.mk [])
            (TorrentSpec.mk [["udp://tr"]] 5 (some [9]) "dn" 0)).1
          (TorrentSpec.mk [["udp://tr"]] 5 (some [9]) "dn" 0) =
        ((AddTorrentSpec (fun _ => 5) (ClientT.mk [])
          (TorrentSpec.mk [["udp://tr"]] 5 (some [9]) "dn" 0)).1, false, none) ∧
      ((AddTorrentSpec (fun _ => 5) (ClientT.mk [])
          (TorrentSpec.mk [["udp://tr"]] 5 (some [9]) "dn" 0)).1.torrents.filter
        (fun kt => kt.1 = 5)).length = 1) :=
  addTorrentSpec_idempotent (fun _ => 5) (ClientT.mk [])
    (TorrentSpec.mk [["udp://tr"]] 5 (some [9]) "dn" 0)
    (by simp) (by simp) (fun b hb => rfl)

end TorrentProof
